import Mathlib

/-!
Verification of the codemate pull-request review agent.

The development shallowly embeds the Python sources of the repository
(`pr_agent.py`, `git_client.py`, `review_engine.py`, `config.py`) into Lean:

* Python values that flow through the JSON-handling code are modelled by the
  `Json` inductive; the dynamic-typing behaviour of the handful of Python
  operations the code uses (`.get`, `[...]`, `in`, iteration) is modelled by
  total Lean functions returning `Except PyExn _`, where `PyExn` stands for a
  raised Python exception.
* Python builtins used by the code (`str.lower`, `str.strip`, `str.split`,
  `int`, substring `in`, `str.endswith`) are embedded as executable Lean
  functions over `List Char`.  `int` is modelled for ASCII literals
  (optional surrounding whitespace, optional sign, digits with single
  underscores between digits); `str.lower` is modelled on the ASCII range,
  which is the fragment that the comparisons in this program can observe.
* Network traffic is an oracle: a `FetchWorld` records the response the
  network would give to each of the (at most three) HTTP requests a run can
  make, and every function that performs a request also returns the list of
  `NetCall` values it emitted, so that claims about "zero outbound requests"
  are statements about that trace.
-/

set_option maxRecDepth 40000

namespace Codemate

/-! ## Python string builtins -/

/-- ASCII lowercasing of one character, as performed by Python `str.lower`
on the ASCII range (characters outside `A`-`Z` are returned unchanged). -/
def pyCharLower (c : Char) : Char :=
  if 65 ≤ c.toNat ∧ c.toNat ≤ 90 then Char.ofNat (c.toNat + 32) else c

/-- Python `s.lower()`. -/
def pyLower (s : String) : String := ⟨s.data.map pyCharLower⟩

/-- Boolean prefix test on character lists (used to define substring search). -/
def isPrefixL : List Char → List Char → Bool
  | [], _ => true
  | _ :: _, [] => false
  | a :: as, b :: bs => a == b && isPrefixL as bs

/-- Python `sub in s` on strings: contiguous substring containment. -/
def containsSubstr (s sub : String) : Bool :=
  (List.range (s.data.length + 1)).any (fun i => isPrefixL sub.data (s.data.drop i))

/-- Python `s.endswith(suf)`. -/
def pyEndsWith (s suf : String) : Bool :=
  isPrefixL suf.data.reverse s.data.reverse

/-- Helper for `pySplit`: walks the characters, cutting at each separator. -/
def splitRun (sep : Char) : List Char → List Char → List String
  | [], acc => [String.mk acc.reverse]
  | c :: rest, acc =>
      if c == sep then String.mk acc.reverse :: splitRun sep rest []
      else splitRun sep rest (c :: acc)

/-- Python `s.split(sep)` for a one-character separator: keeps empty pieces,
and yields `[""]` on the empty string, exactly like Python. -/
def pySplit (s : String) (sep : Char) : List String := splitRun sep s.data []

/-- Python `s.strip(c)` for a one-character strip set. -/
def stripChar (c : Char) (s : String) : String :=
  ⟨((s.data.dropWhile (· == c)).reverse.dropWhile (· == c)).reverse⟩

/-- Python `s.strip()` (whitespace), used by `int()` on its argument. -/
def pyTrim (s : String) : String :=
  ⟨((s.data.dropWhile Char.isWhitespace).reverse.dropWhile Char.isWhitespace).reverse⟩

/-- Numeric value of a run of decimal digits, ignoring underscores. -/
def digitsVal (cs : List Char) : Nat :=
  cs.foldl (fun a c => if c == '_' then a else 10 * a + (c.toNat - 48)) 0

/-- Helper for `digRun`: accepts digits with single underscores strictly
between digits (Python 3 integer-literal grouping), after an initial digit. -/
def digRunAux : List Char → Bool
  | [] => true
  | '_' :: rest =>
      match rest with
      | [] => false
      | c :: rest2 => c.isDigit && digRunAux rest2
  | c :: rest => c.isDigit && digRunAux rest

/-- Accepts a nonempty ASCII digit run with optional internal underscores. -/
def digRun : List Char → Bool
  | [] => false
  | c :: rest => c.isDigit && digRunAux rest

/-- Python `int(s)`: strips whitespace, then an optional sign followed by a
nonempty digit run.  Returns `none` where Python raises `ValueError`. -/
def pyInt (s : String) : Option Int :=
  match (pyTrim s).data with
  | '+' :: rest => if digRun rest then some (digitsVal rest) else none
  | '-' :: rest => if digRun rest then some (-(digitsVal rest : Int)) else none
  | cs => if digRun cs then some (digitsVal cs) else none

/-! ## Python JSON values and dynamic operations -/

/-- A parsed JSON payload, as produced by `response.json()` in `requests`. -/
inductive Json where
  | null
  | bool (b : Bool)
  | int (n : Int)
  | str (s : String)
  | list (xs : List Json)
  | obj (kvs : List (String × Json))

mutual

/-- Python `==` on the JSON fragment of Python values (used by `dict`
insertion and by `in` on lists). -/
def jsonEq : Json → Json → Bool
  | .null, .null => true
  | .bool a, .bool b => a == b
  | .int a, .int b => a == b
  | .str a, .str b => a == b
  | .list xs, .list ys => jsonEqL xs ys
  | .obj xs, .obj ys => jsonEqO xs ys
  | _, _ => false

/-- Elementwise `jsonEq` on lists. -/
def jsonEqL : List Json → List Json → Bool
  | [], [] => true
  | x :: xs, y :: ys => jsonEq x y && jsonEqL xs ys
  | _, _ => false

/-- Elementwise `jsonEq` on object entries. -/
def jsonEqO : List (String × Json) → List (String × Json) → Bool
  | [], [] => true
  | (k, v) :: xs, (k2, v2) :: ys => k == k2 && jsonEq v v2 && jsonEqO xs ys
  | _, _ => false

end

/-- Python type name of a `Json` value, used in exception messages. -/
def pyTypeName : Json → String
  | .null => "NoneType"
  | .bool _ => "bool"
  | .int _ => "int"
  | .str _ => "str"
  | .list _ => "list"
  | .obj _ => "dict"

/-- Python `repr` of a `Json` value (string escaping inside `repr` of a
string is not modelled; no theorem evaluates it on strings needing it). -/
def pyRepr : Json → String
  | .null => "None"
  | .bool true => "True"
  | .bool false => "False"
  | .int n => toString n
  | .str s => "\x27" ++ s ++ "\x27"
  | .list xs => "[" ++ String.intercalate ", " (xs.attach.map (fun x => pyRepr x.1)) ++ "]"
  | .obj kvs => "\x7b" ++ String.intercalate ", "
      (kvs.attach.map (fun kv => "\x27" ++ kv.1.1 ++ "\x27: " ++ pyRepr kv.1.2)) ++ "\x7d"
decreasing_by
  · have := List.sizeOf_lt_of_mem x.2
    simp_wf
    omega
  · have h1 := List.sizeOf_lt_of_mem kv.2
    obtain ⟨⟨k, v⟩, hmem⟩ := kv
    simp_wf
    simp at h1
    omega

/-- Python `str()` of a `Json` value, as used by f-string interpolation. -/
def pyStr : Json → String
  | .str s => s
  | j => pyRepr j

/-- A raised Python exception.  `reqExn` stands for any
`requests.exceptions.RequestException` (connection errors, `HTTPError` from
`raise_for_status`, and the `JSONDecodeError` raised by `response.json()`,
which all derive from it); the others are the standard dynamic errors. -/
inductive PyExn where
  | reqExn
  | valueErr (msg : String)
  | attrErr (msg : String)
  | typeErr (msg : String)
  | keyErr (key : Json)

/-- First-match association lookup in a parsed JSON object. -/
def lookupJ : List (String × Json) → String → Option Json
  | [], _ => none
  | (k, v) :: rest, key => if k == key then some v else lookupJ rest key

/-- Python `for x in j`: lists yield elements, dicts yield their keys,
strings yield one-character strings, everything else raises `TypeError`. -/
def pyIter : Json → Except PyExn (List Json)
  | .list xs => .ok xs
  | .obj kvs => .ok (kvs.map (fun kv => .str kv.1))
  | .str s => .ok (s.data.map (fun c => .str (String.mk [c])))
  | j => .error (.typeErr ("\x27" ++ pyTypeName j ++ "\x27 object is not iterable"))

/-- Python `key in j`: key membership for dicts, substring test for strings,
element membership for lists, `TypeError` otherwise. -/
def pyIn (key : String) : Json → Except PyExn Bool
  | .obj kvs => .ok (kvs.any (fun kv => kv.1 == key))
  | .str s => .ok (containsSubstr s key)
  | .list xs => .ok (xs.any (fun x => jsonEq x (.str key)))
  | j => .error (.typeErr ("argument of type \x27" ++ pyTypeName j ++ "\x27 is not iterable"))

/-- Python `j[key]` with a string key: dict lookup raising `KeyError` when
absent, `TypeError` on any non-dict value. -/
def pyGetItem : Json → String → Except PyExn Json
  | .obj kvs, key =>
      match lookupJ kvs key with
      | some v => .ok v
      | none => .error (.keyErr (.str key))
  | .str _, _ => .error (.typeErr "string indices must be integers")
  | .list _, _ => .error (.typeErr "list indices must be integers or slices, not str")
  | j, _ => .error (.typeErr ("\x27" ++ pyTypeName j ++ "\x27 object is not subscriptable"))

/-- Python `j.get(key)`: total on dicts (returning `None` for a missing
key), `AttributeError` on any other value. -/
def pyGet : Json → String → Except PyExn Json
  | .obj kvs, key => .ok ((lookupJ kvs key).getD .null)
  | j, _ => .error (.attrErr ("\x27" ++ pyTypeName j ++ "\x27 object has no attribute \x27get\x27"))

/-- Python `d[k] = v` on an insertion-ordered dict: an existing key keeps its
position and has its value overwritten, a new key is appended. -/
def dictInsert (d : List (Json × Json)) (k v : Json) : List (Json × Json) :=
  match d with
  | [] => [(k, v)]
  | (k2, v2) :: rest =>
      if jsonEq k2 k then (k2, v) :: rest else (k2, v2) :: dictInsert rest k v

/-! ## URL Resolver (`pr_agent.py`, `parse_pr_url`, lines 18-47)

`urllib.parse.urlparse` is external library code; its two outputs that
`parse_pr_url` consumes are modelled as the fields of `Url`. -/

/-- The `netloc` and `path` components that `urlparse` extracts from the
pull-request URL string. -/
structure Url where
  netloc : String
  path : String
deriving DecidableEq

/-- The tuple `(server, owner, repo, pr_number)` returned on success. -/
structure ParsedInfo where
  server : String
  owner : String
  repo : String
  prNumber : Int
deriving DecidableEq

/-- Embedding of `parse_pr_url` (`pr_agent.py` lines 18-47).  `.ok none`
models the `return None` branch, `.error` models an escaping exception:
`int(path_parts[3])` raises `ValueError` when the segment is not an integer
literal. -/
def parse_pr_url (u : Url) : Except PyExn (Option ParsedInfo) :=
  let domain := pyLower u.netloc
  let path_parts := pySplit (stripChar '/' u.path) '/'
  if containsSubstr domain "github.com" && decide (path_parts.length ≥ 4)
      && (path_parts.getD 2 "" == "pull") then
    match pyInt (path_parts.getD 3 "") with
    | some n => .ok (some ⟨"github", path_parts.getD 0 "", path_parts.getD 1 "", n⟩)
    | none => .error (.valueErr
        ("invalid literal for int() with base 10: \x27" ++ path_parts.getD 3 "" ++ "\x27"))
  else if containsSubstr domain "gitlab.com" && decide (path_parts.length ≥ 4)
      && (path_parts.getD 2 "" == "merge_requests") then
    match pyInt (path_parts.getD 3 "") with
    | some n => .ok (some ⟨"gitlab", path_parts.getD 0 "", path_parts.getD 1 "", n⟩)
    | none => .error (.valueErr
        ("invalid literal for int() with base 10: \x27" ++ path_parts.getD 3 "" ++ "\x27"))
  else
    .ok none

/-! ## Analysis Step (`review_engine.py`, `ReviewEngine.analyze_changes`, lines 17-57) -/

/-- The fixed opening of every review (`review_engine.py` line 27). -/
def reviewHeader : String := "### Automated PR Review Summary\n\n"

/-- The fixed closing sentence of every review (`review_engine.py` lines 51-55,
three adjacent string literals concatenated by Python). -/
def reviewFooter : String :=
  "This is an automated review. For more specific feedback, you can " ++
  "implement an AI-driven system to analyze the diffs and provide " ++
  "inline suggestions for better readability, performance, and security."

/-- Bullet block chosen by the extension checks on the file path
(`review_engine.py` lines 38-47); the diff text is never consulted. -/
def sectionBody (file_path : String) : String :=
  if pyEndsWith file_path ".py" then
    "- **Potential Bug:** Consider adding type hints to function signatures for better code clarity.\n" ++
    "- **Code Style:** Ensure adherence to PEP 8 standards.\n" ++
    "- **Performance:** Check for inefficient loops or redundant operations.\n"
  else if pyEndsWith file_path ".js" || pyEndsWith file_path ".ts" then
    "- **Potential Bug:** Check for proper async/await usage and error handling.\n" ++
    "- **Code Style:** Use consistent formatting and variable naming.\n" ++
    "- **Security:** Sanitize user inputs to prevent XSS attacks.\n"
  else
    "- **General Feedback:** The changes seem straightforward. Please double-check for any typos.\n"

/-- The loop of `analyze_changes` (`review_engine.py` lines 35-49) over the
insertion-ordered items of `file_changes`.  The f-string interpolation of the
key succeeds for any value, after which `file_path.endswith` raises
`AttributeError` on a non-string key; the diff value is never used. -/
def analyzeLoop (acc : String) : List (Json × Json) → Except PyExn String
  | [] => .ok acc
  | (fp, _) :: rest =>
      let acc2 := acc ++ "#### Review for `" ++ pyStr fp ++ "`\n"
      match fp with
      | .str s => analyzeLoop (acc2 ++ sectionBody s ++ "\n") rest
      | _ => .error (.attrErr
          ("\x27" ++ pyTypeName fp ++ "\x27 object has no attribute \x27endswith\x27"))

/-- Embedding of `ReviewEngine.analyze_changes` (`review_engine.py`
lines 17-57): header, one section per entry, closing sentence. -/
def analyze_changes (file_changes : List (Json × Json)) : Except PyExn String :=
  (analyzeLoop reviewHeader file_changes).map (fun s => s ++ reviewFooter)

/-! ## Provider clients (`git_client.py`)

HTTP traffic is modelled by an oracle: `ReqResult` is what the network
returns for one request (`netErr` models `requests.get`/`requests.post`
raising a connection-level `RequestException`; otherwise a status code, the
result of `response.json()` — `none` when the body is not valid JSON, so
that `.json()` raises `JSONDecodeError` — and `response.text`). -/

/-- Outcome of one HTTP request. -/
inductive ReqResult where
  | netErr
  | resp (status : Nat) (jsonBody : Option Json) (text : String)

/-- True exactly when `ReqResult.netErr`. -/
def ReqResult.isNetErr : ReqResult → Bool
  | .netErr => true
  | .resp _ _ _ => false

/-- The responses the network would give to the three requests a run can
make: the pull-request metadata GET, the changed-files GET, the comment POST. -/
structure FetchWorld where
  prResp : ReqResult
  filesResp : ReqResult
  postResp : ReqResult

/-- One outbound HTTP request, as recorded in a trace. -/
inductive NetCall where
  | get (url : String)
  | post (url : String) (body : String)
deriving DecidableEq

/-- `requests` raises `HTTPError` from `raise_for_status` exactly for
status codes in `[400, 600)`. -/
def raiseForStatusFails (st : Nat) : Bool := decide (400 ≤ st) && decide (st < 600)

/-- The normalized dictionary returned by `fetch_pr_details`
(`git_client.py` lines 68-73). -/
structure PrDetails where
  title : Json
  body : Json
  url : Json
  file_changes : List (Json × Json)

/-- The diff-extraction loop of `fetch_pr_details` (`git_client.py`
lines 62-66): keep an entry only when it carries a `patch` key.  Python
evaluates `file["patch"]` before `file["filename"]` in the assignment, but
whenever `"patch" in file` is true on a dict the `file["patch"]` lookup
cannot raise, so performing the `filename` lookup first raises exactly the
same exceptions. -/
def extractLoop (acc : List (Json × Json)) : List Json → Except PyExn (List (Json × Json))
  | [] => .ok acc
  | file :: rest =>
      match pyIn "patch" file with
      | .error e => .error e
      | .ok false => extractLoop acc rest
      | .ok true =>
          match pyGetItem file "filename" with
          | .error e => .error e
          | .ok fn =>
              match pyGetItem file "patch" with
              | .error e => .error e
              | .ok p => extractLoop (dictInsert acc fn p) rest

/-- Runs the diff-extraction loop over an arbitrary files payload. -/
def extract_file_changes (files_data : Json) : Except PyExn (List (Json × Json)) :=
  match pyIter files_data with
  | .error e => .error e
  | .ok files => extractLoop [] files

/-- GitHub API base URL (`git_client.py` line 39). -/
def GITHUB_BASE_URL : String := "https://api.github.com"

/-- Embedding of `GitHubClient.fetch_pr_details` (`git_client.py`
lines 47-76).  The `try` block catches only
`requests.exceptions.RequestException` (connection errors, `HTTPError`,
`JSONDecodeError`) and then returns `None` (modelled `.ok none`); the
dynamic errors raised by the extraction loop and by `pr_data.get` are not
caught and escape as `.error`. -/
def fetch_pr_details (owner repo : String) (pr_number : Int) (w : FetchWorld) :
    List NetCall × Except PyExn (Option PrDetails) :=
  let pr_url := GITHUB_BASE_URL ++ "/repos/" ++ owner ++ "/" ++ repo ++ "/pulls/" ++ toString pr_number
  let files_url := pr_url ++ "/files"
  match w.prResp with
  | .netErr => ([.get pr_url], .ok none)
  | .resp st body _ =>
      if raiseForStatusFails st then ([.get pr_url], .ok none)
      else
        match body with
        | none => ([.get pr_url], .ok none)
        | some pr_data =>
            match w.filesResp with
            | .netErr => ([.get pr_url, .get files_url], .ok none)
            | .resp st2 body2 _ =>
                if raiseForStatusFails st2 then ([.get pr_url, .get files_url], .ok none)
                else
                  match body2 with
                  | none => ([.get pr_url, .get files_url], .ok none)
                  | some files_data =>
                      match extract_file_changes files_data with
                      | .error e => ([.get pr_url, .get files_url], .error e)
                      | .ok fcs =>
                          match pyGet pr_data "title" with
                          | .error e => ([.get pr_url, .get files_url], .error e)
                          | .ok t =>
                              match pyGet pr_data "body" with
                              | .error e => ([.get pr_url, .get files_url], .error e)
                              | .ok b =>
                                  match pyGet pr_data "html_url" with
                                  | .error e => ([.get pr_url, .get files_url], .error e)
                                  | .ok u =>
                                      ([.get pr_url, .get files_url],
                                       .ok (some ⟨t, b, u, fcs⟩))

/-- Embedding of `GitHubClient.post_review_comment` (`git_client.py`
lines 78-86): one POST; a 201 status prints success, any other status
prints failure, and both return normally.  `requests.post` itself is not
wrapped in a `try`, so a connection-level failure raises (`.error .reqExn`). -/
def post_review_comment (owner repo : String) (pr_number : Int) (comment : String)
    (resp : ReqResult) : List String × List NetCall × Except PyExn Unit :=
  let url := GITHUB_BASE_URL ++ "/repos/" ++ owner ++ "/" ++ repo ++ "/issues/" ++
    toString pr_number ++ "/comments"
  match resp with
  | .netErr => ([], [.post url comment], .error .reqExn)
  | .resp st _ text =>
      if st == 201 then
        (["Successfully posted general review comment on GitHub."],
         [.post url comment], .ok ())
      else
        (["Failed to post general comment: " ++ toString st ++ " - " ++ text],
         [.post url comment], .ok ())

/-- Trace of one `post_inline_comment` call. -/
structure InlineOutcome where
  prints : List String
  summaryCalls : List String
  netCalls : List NetCall
  result : Except PyExn Unit

/-- Embedding of `GitHubClient.post_inline_comment` (`git_client.py`
lines 88-93): prints the degradation notice, then delegates to
`post_review_comment` with a synthesized textual reference.
`summaryCalls` records the texts passed to `post_review_comment`. -/
def post_inline_comment (owner repo : String) (pr_number : Int) (file_path : String)
    (line_number : Int) (comment : String) (resp : ReqResult) : InlineOutcome :=
  let note := "Note: Inline commenting is not fully implemented. Posting as a general comment instead."
  let text := "Review comment on file " ++ file_path ++ ", line " ++
    toString line_number ++ ": " ++ comment
  let out := post_review_comment owner repo pr_number text resp
  ⟨note :: out.1, [text], out.2.1, out.2.2⟩

/-- The three concrete clients the factory can build (`git_client.py`). -/
inductive Client where
  | githubClient (token : String)
  | gitlabClient (token : String)
  | bitbucketClient (token : String)
deriving DecidableEq

/-- Embedding of the factory `get_client` (`git_client.py` lines 130-139):
dispatch on the lowercased identifier, `ValueError` otherwise. -/
def get_client (server_type token : String) : Except PyExn Client :=
  if pyLower server_type == "github" then .ok (.githubClient token)
  else if pyLower server_type == "gitlab" then .ok (.gitlabClient token)
  else if pyLower server_type == "bitbucket" then .ok (.bitbucketClient token)
  else .error (.valueErr ("Unsupported Git server: " ++ server_type))

/-- The fixed placeholder result of `GitlabClient.fetch_pr_details`
(`git_client.py` lines 98-105). -/
def gitlabDummyDetails : PrDetails :=
  ⟨.str "Dummy GitLab PR",
   .str "This is a placeholder for a GitLab Merge Request.",
   .str "https://gitlab.com/dummy/project/-/merge_requests/1",
   [(.str "dummy.py", .str "def placeholder():\n    return \x27This is a dummy change.\x27")]⟩

/-- The fixed placeholder result of `BitbucketClient.fetch_pr_details`
(`git_client.py` lines 113-122). -/
def bitbucketDummyDetails : PrDetails :=
  ⟨.str "Dummy Bitbucket PR",
   .str "This is a placeholder for a Bitbucket Pull Request.",
   .str "https://bitbucket.org/dummy/project/pull-requests/1",
   [(.str "dummy.js", .str "function dummy() \x7b\n  console.log(\x27Dummy change\x27);\n\x7d")]⟩

/-- Dynamic dispatch of `fetch_pr_details` over the client: GitHub performs
the two GETs; the GitLab and Bitbucket placeholders print and return dummy
data without touching the network. -/
def clientFetch : Client → String → String → Int → FetchWorld →
    List NetCall × Except PyExn (Option PrDetails)
  | .githubClient _, owner, repo, n, w => fetch_pr_details owner repo n w
  | .gitlabClient _, _, _, _, _ => ([], .ok (some gitlabDummyDetails))
  | .bitbucketClient _, _, _, _, _ => ([], .ok (some bitbucketDummyDetails))

/-- Dynamic dispatch of `post_review_comment` over the client: GitHub
performs the POST; the placeholders only print. -/
def clientPost : Client → String → String → Int → String → ReqResult →
    List String × List NetCall × Except PyExn Unit
  | .githubClient _, owner, repo, n, comment, resp => post_review_comment owner repo n comment resp
  | .gitlabClient _, _, _, _, comment, _ =>
      (["GitLab client not implemented. Dummy comment: " ++ comment], [], .ok ())
  | .bitbucketClient _, _, _, _, comment, _ =>
      (["Bitbucket client not implemented. Dummy comment: " ++ comment], [], .ok ())

/-! ## Orchestrator (`pr_agent.py`, `main`, lines 49-105)

`main` distinguishes its exit paths by the message it prints before
`sys.exit(1)` (or by completing normally); `RunStatus` names those paths.
`crashed e` is an uncaught exception escaping `main`. -/

/-- The distinct termination paths of one run of `main`. -/
inductive RunStatus where
  | invalidInput
  | missingCredential
  | unsupportedProvider
  | fetchFailed
  | posted
  | declined
  | crashed (e : PyExn)

/-- Observable outcome of one run: termination path, outbound HTTP trace,
texts passed to `post_review_comment`, and whether control reached the
confirmation prompt (`input(...)` on line 98). -/
structure RunResult where
  status : RunStatus
  netCalls : List NetCall
  summaryCalls : List String
  reachedConfirm : Bool

/-- Input of one run: the parsed URL argument, the `GIT_API_TOKENS`
configuration dict, the network oracle, and the operator reply typed at the
confirmation prompt. -/
structure RunInput where
  url : Url
  tokens : List (String × String)
  world : FetchWorld
  confirm : String

/-- Python `dict.get` on the string-keyed token configuration. -/
def lookupToken : List (String × String) → String → Option String
  | [], _ => none
  | (k, v) :: rest, key => if k == key then some v else lookupToken rest key

/-- Steps 6-7 of `main` (`pr_agent.py` lines 98-102): lowercase the reply,
post exactly on `"yes"`, otherwise decline without posting. -/
def confirmAndPost (c : Client) (owner repo : String) (pr_number : Int)
    (fetchCalls : List NetCall) (feedback confirm : String) (resp : ReqResult) : RunResult :=
  if pyLower confirm == "yes" then
    match clientPost c owner repo pr_number feedback resp with
    | (_, calls, .ok _) => ⟨.posted, fetchCalls ++ calls, [feedback], true⟩
    | (_, calls, .error e) => ⟨.crashed e, fetchCalls ++ calls, [feedback], true⟩
  else ⟨.declined, fetchCalls, [], true⟩

/-- Steps 3-7 of `main` (`pr_agent.py` lines 75-102), after the credential
check: factory dispatch, fetch, analysis, confirmation. -/
def runWithToken (server owner repo : String) (pr_number : Int) (token : String)
    (w : FetchWorld) (confirm : String) : RunResult :=
  match get_client server token with
  | .error _ => ⟨.unsupportedProvider, [], [], false⟩
  | .ok c =>
      match clientFetch c owner repo pr_number w with
      | (calls, .error e) => ⟨.crashed e, calls, [], false⟩
      | (calls, .ok none) => ⟨.fetchFailed, calls, [], false⟩
      | (calls, .ok (some d)) =>
          match analyze_changes d.file_changes with
          | .error e => ⟨.crashed e, calls, [], false⟩
          | .ok feedback => confirmAndPost c owner repo pr_number calls feedback confirm w.postResp

/-- Embedding of `main` (`pr_agent.py` lines 49-105) from the point where
the URL argument is available (the missing-argument usage check on
lines 54-57 precedes every step modelled here and makes no network call). -/
def runMain (inp : RunInput) : RunResult :=
  match parse_pr_url inp.url with
  | .error e => ⟨.crashed e, [], [], false⟩
  | .ok none => ⟨.invalidInput, [], [], false⟩
  | .ok (some pi) =>
      match lookupToken inp.tokens (pyLower pi.server) with
      | none => ⟨.missingCredential, [], [], false⟩
      | some token =>
          if token == "" || token == "YOUR_GITHUB_TOKEN_HERE" then
            ⟨.missingCredential, [], [], false⟩
          else
            runWithToken pi.server pi.owner pi.repo pi.prNumber token inp.world inp.confirm

/-! ## Helper lemmas -/

theorem ofNat_toNat_small (n : Nat) (h : n < 55296) : (Char.ofNat n).toNat = n := by
  unfold Char.ofNat
  rw [dif_pos (Or.inl h)]
  rfl

theorem charEq_of_toNat (c d : Char) (h : c.toNat = d.toNat) : c = d :=
  Char.eq_of_val_eq (UInt32.ext h)

theorem pyCharLower_inv {c d : Char} (h : pyCharLower c = d) :
    c = d ∨ (65 ≤ c.toNat ∧ c.toNat ≤ 90 ∧ c.toNat + 32 = d.toNat) := by
  unfold pyCharLower at h
  split at h
  · right
    rename_i hr
    refine ⟨hr.1, hr.2, ?_⟩
    rw [← h, ofNat_toNat_small]
    omega
  · left; exact h

@[simp] theorem isPrefixL_nil (l : List Char) : isPrefixL [] l = true := by
  cases l <;> rfl

theorem isPrefixL_self_append (l m : List Char) : isPrefixL l (l ++ m) = true := by
  induction l with
  | nil => simp
  | cons c cs ih => simp [isPrefixL, ih]

/-- A string built as `a ++ b ++ c` contains `b` as a substring. -/
theorem containsSubstr_mid (a b c : String) : containsSubstr (a ++ b ++ c) b = true := by
  unfold containsSubstr
  rw [List.any_eq_true]
  refine ⟨a.data.length, ?_, ?_⟩
  · rw [List.mem_range]
    simp [String.data_append]
    omega
  · rw [String.data_append, String.data_append, List.append_assoc, List.drop_left]
    exact isPrefixL_self_append _ _

/-- A string starting with a nonempty literal is itself nonempty. -/
theorem append_ne_empty_of_left (a b : String) (h : a.data ≠ []) : a ++ b ≠ "" := by
  intro hc
  have hd : (a ++ b).data = [] := congrArg String.data hc
  rw [String.data_append] at hd
  exact h (List.append_eq_nil.mp hd).1

/-! ## The claims -/

/-- C1 (code_bug evidence): on a well-formed provider-A URL with positive id
the resolver returns the identity, but on a non-numeric id segment
`int(path_parts[3])` raises `ValueError` instead of returning the failure
value `None`, and on `-1` and `0` it returns an identity with a non-positive
request id instead of failing, contradicting both the spec and the
docstring of `parse_pr_url` ("or None if the URL is invalid"). -/
theorem parse_pr_url_id_segment_behaviour :
    parse_pr_url ⟨"github.com", "/octocat/Spoon-Knife/pull/7"⟩ =
      .ok (some ⟨"github", "octocat", "Spoon-Knife", 7⟩) ∧
    parse_pr_url ⟨"github.com", "/octocat/Spoon-Knife/pull/abc"⟩ =
      .error (.valueErr "invalid literal for int() with base 10: \x27abc\x27") ∧
    parse_pr_url ⟨"github.com", "/octocat/Spoon-Knife/pull/-1"⟩ =
      .ok (some ⟨"github", "octocat", "Spoon-Knife", -1⟩) ∧
    parse_pr_url ⟨"github.com", "/octocat/Spoon-Knife/pull/0"⟩ =
      .ok (some ⟨"github", "octocat", "Spoon-Knife", 0⟩) :=
  ⟨rfl, rfl, rfl, rfl⟩

/-- C9: host matching is substring containment on the lowercased netloc, so
any host containing the marker (also unrelated domains that merely embed
it), together with a long-enough path whose third segment is the provider
path word and whose fourth segment is an integer literal, resolves to that
provider with the first two segments as owner and repo. -/
theorem host_matching_substring (u v : Url) (n m : Int)
    (hg1 : containsSubstr (pyLower u.netloc) "github.com" = true)
    (hg2 : (pySplit (stripChar '/' u.path) '/').length ≥ 4)
    (hg3 : (pySplit (stripChar '/' u.path) '/').getD 2 "" = "pull")
    (hg4 : pyInt ((pySplit (stripChar '/' u.path) '/').getD 3 "") = some n)
    (hl1 : containsSubstr (pyLower v.netloc) "gitlab.com" = true)
    (hl2 : (pySplit (stripChar '/' v.path) '/').length ≥ 4)
    (hl3 : (pySplit (stripChar '/' v.path) '/').getD 2 "" = "merge_requests")
    (hl4 : pyInt ((pySplit (stripChar '/' v.path) '/').getD 3 "") = some m) :
    parse_pr_url u = .ok (some ⟨"github", (pySplit (stripChar '/' u.path) '/').getD 0 "",
      (pySplit (stripChar '/' u.path) '/').getD 1 "", n⟩) ∧
    parse_pr_url v = .ok (some ⟨"gitlab", (pySplit (stripChar '/' v.path) '/').getD 0 "",
      (pySplit (stripChar '/' v.path) '/').getD 1 "", m⟩) := by
  constructor
  · have hcond : (containsSubstr (pyLower u.netloc) "github.com" &&
        decide ((pySplit (stripChar '/' u.path) '/').length ≥ 4) &&
        ((pySplit (stripChar '/' u.path) '/').getD 2 "" == "pull")) = true := by
      rw [hg1, hg3]
      simp [hg2]
    simp only [parse_pr_url, hcond, if_true, hg4]
  · have hne : ((pySplit (stripChar '/' v.path) '/').getD 2 "" == "pull") = false := by
      rw [hl3]; rfl
    have hcond : (containsSubstr (pyLower v.netloc) "gitlab.com" &&
        decide ((pySplit (stripChar '/' v.path) '/').length ≥ 4) &&
        ((pySplit (stripChar '/' v.path) '/').getD 2 "" == "merge_requests")) = true := by
      rw [hl1, hl3]
      simp [hl2]
    simp only [parse_pr_url, hne, Bool.and_false, Bool.false_eq_true, if_false, hcond,
      if_true, hl4]

/-- Witness for C9 at the malicious host of the claim. -/
theorem host_matching_substring_witness :
    parse_pr_url ⟨"github.com.evil.example", "/own/rep/pull/5"⟩ =
      .ok (some ⟨"github", "own", "rep", 5⟩) ∧
    parse_pr_url ⟨"gitlab.com.evil.example", "/own/rep/merge_requests/6"⟩ =
      .ok (some ⟨"gitlab", "own", "rep", 6⟩) :=
  host_matching_substring ⟨"github.com.evil.example", "/own/rep/pull/5"⟩
    ⟨"gitlab.com.evil.example", "/own/rep/merge_requests/6"⟩ 5 6
    (by decide) (by decide) (by decide) (by decide)
    (by decide) (by decide) (by decide) (by decide)

/-- One review section, determined by the file path alone. -/
def fileSection (file_path : String) : String :=
  "#### Review for `" ++ file_path ++ "`\n" ++ sectionBody file_path ++ "\n"

/-- Concatenation of one section per entry, in order, ignoring diff texts. -/
def sectionsFor : List (String × String) → String
  | [] => ""
  | (p, _) :: rest => fileSection p ++ sectionsFor rest

/-- Lifts a string-keyed diff map into the JSON-valued model. -/
def liftChanges (m : List (String × String)) : List (Json × Json) :=
  m.map (fun p => (Json.str p.1, Json.str p.2))

theorem analyzeLoop_lift (m : List (String × String)) (acc : String) :
    analyzeLoop acc (liftChanges m) = .ok (acc ++ sectionsFor m) := by
  induction m generalizing acc with
  | nil => simp [analyzeLoop, liftChanges, sectionsFor]
  | cons p rest ih =>
      simp only [liftChanges, List.map_cons, analyzeLoop, pyStr]
      rw [show liftChanges rest = rest.map (fun p => (Json.str p.1, Json.str p.2)) from rfl] at ih
      rw [ih]
      simp [sectionsFor, fileSection, String.append_assoc]

/-- C10: for every string-keyed diff map, the analysis output is exactly the
fixed header, one section per key in iteration order whose body depends only
on the file path (the diff text does not appear in the formula), and the
fixed closing sentence; it begins with the header, ends with the closing
sentence, and is never empty. -/
theorem analyze_changes_structure (m : List (String × String)) :
    analyze_changes (liftChanges m) = .ok (reviewHeader ++ sectionsFor m ++ reviewFooter) ∧
    isPrefixL reviewHeader.data (reviewHeader ++ sectionsFor m ++ reviewFooter).data = true ∧
    pyEndsWith (reviewHeader ++ sectionsFor m ++ reviewFooter) reviewFooter = true ∧
    reviewHeader ++ sectionsFor m ++ reviewFooter ≠ "" := by
  refine ⟨?_, ?_, ?_, ?_⟩
  · unfold analyze_changes
    rw [analyzeLoop_lift]
    rfl
  · rw [String.data_append, String.data_append, List.append_assoc]
    exact isPrefixL_self_append _ _
  · unfold pyEndsWith
    rw [String.data_append, List.reverse_append]
    exact isPrefixL_self_append _ _
  · rw [String.append_assoc]
    exact append_ne_empty_of_left _ _ (by decide)

/-- Confirmation is reached by every execution of the confirmation step. -/
theorem confirmAndPost_reaches (c : Client) (owner repo : String) (n : Int)
    (fc : List NetCall) (fb confirm : String) (resp : ReqResult) :
    (confirmAndPost c owner repo n fc fb confirm resp).reachedConfirm = true := by
  unfold confirmAndPost
  split
  · rcases clientPost c owner repo n fb resp with ⟨p, calls, res⟩
    cases res <;> rfl
  · rfl

/-- C7 (counterexample): on an empty diff map the analysis output is exactly
the header followed by the fixed closing sentence; that text nowhere
mentions emptiness (no occurrence of "empt" or "Empt"), so it does not say
explicitly that the input was empty. -/
theorem analyze_empty_not_explicit :
    analyze_changes [] = .ok (reviewHeader ++ reviewFooter) ∧
    containsSubstr (reviewHeader ++ reviewFooter) "empt" = false ∧
    containsSubstr (reviewHeader ++ reviewFooter) "Empt" = false :=
  ⟨rfl, by decide, by decide⟩

/-- C7 (amended): on an empty diff map the analysis step still runs and
yields nonempty text with no per-file section, and a run whose fetch
succeeds with an empty diff map still reaches the confirmation prompt. -/
theorem empty_changes_reaches_confirmation
    (inp : RunInput) (pd : ParsedInfo) (tok : String) (c : Client) (d : PrDetails)
    (calls : List NetCall)
    (hparse : parse_pr_url inp.url = .ok (some pd))
    (htok : lookupToken inp.tokens (pyLower pd.server) = some tok)
    (htok2 : (tok == "" || tok == "YOUR_GITHUB_TOKEN_HERE") = false)
    (hclient : get_client pd.server tok = .ok c)
    (hfetch : clientFetch c pd.owner pd.repo pd.prNumber inp.world = (calls, .ok (some d)))
    (hempty : d.file_changes = []) :
    analyze_changes d.file_changes = .ok (reviewHeader ++ reviewFooter) ∧
    reviewHeader ++ reviewFooter ≠ "" ∧
    containsSubstr (reviewHeader ++ reviewFooter) "#### Review for" = false ∧
    (runMain inp).reachedConfirm = true := by
  refine ⟨by rw [hempty]; rfl, append_ne_empty_of_left _ _ (by decide), by decide, ?_⟩
  have hanalyze : analyze_changes ([] : List (Json × Json)) =
      .ok (reviewHeader ++ reviewFooter) := rfl
  simp only [runMain, hparse, htok, htok2, Bool.false_eq_true, if_false,
    runWithToken, hclient, hfetch, hempty, hanalyze]
  apply confirmAndPost_reaches

/-- Witness for C7 at a concrete run with an empty files payload. -/
theorem empty_changes_reaches_confirmation_witness :
    analyze_changes (⟨Json.null, Json.null, Json.null, []⟩ : PrDetails).file_changes =
      .ok (reviewHeader ++ reviewFooter) ∧
    reviewHeader ++ reviewFooter ≠ "" ∧
    containsSubstr (reviewHeader ++ reviewFooter) "#### Review for" = false ∧
    (runMain ⟨⟨"github.com", "/o/r/pull/1"⟩, [("github", "tok")],
      ⟨.resp 200 (some (.obj [])) "", .resp 200 (some (.list [])) "", .resp 201 none ""⟩,
      "no"⟩).reachedConfirm = true :=
  empty_changes_reaches_confirmation
    ⟨⟨"github.com", "/o/r/pull/1"⟩, [("github", "tok")],
      ⟨.resp 200 (some (.obj [])) "", .resp 200 (some (.list [])) "", .resp 201 none ""⟩, "no"⟩
    ⟨"github", "o", "r", 1⟩ "tok" (.githubClient "tok") ⟨.null, .null, .null, []⟩
    [.get "https://api.github.com/repos/o/r/pulls/1",
     .get "https://api.github.com/repos/o/r/pulls/1/files"]
    rfl rfl (by decide) rfl rfl rfl

/-- True when a request outcome makes the `try` block of `fetch_pr_details`
return `None`: a connection-level error, a 4xx or 5xx status, or a body that
is not valid JSON. -/
def reqFailsEarly : ReqResult → Bool
  | .netErr => true
  | .resp st body _ => raiseForStatusFails st || body.isNone

/-- C3 (amended): when either of the two reads fails with a network error, a
4xx or 5xx status, or a body that is not valid JSON, `fetch_pr_details`
returns the failure value `None` — no partial ReviewTarget. -/
theorem fetch_failure_returns_none (owner repo : String) (n : Int) (w : FetchWorld)
    (h : reqFailsEarly w.prResp = true ∨ reqFailsEarly w.filesResp = true) :
    (fetch_pr_details owner repo n w).2 = .ok none := by
  rcases w with ⟨pr, files, post⟩
  rcases h with h | h
  · cases pr with
    | netErr => rfl
    | resp st body t =>
        simp only [reqFailsEarly, Bool.or_eq_true, Option.isNone_iff_eq_none] at h
        rcases h with h | h
        · simp [fetch_pr_details, h]
        · subst h
          by_cases hrs : raiseForStatusFails st = true <;> simp [fetch_pr_details, hrs]
  · cases pr with
    | netErr => rfl
    | resp st body t =>
        by_cases hrs : raiseForStatusFails st = true
        · simp [fetch_pr_details, hrs]
        · cases body with
          | none => simp [fetch_pr_details, hrs]
          | some pr_data =>
              cases files with
              | netErr => simp [fetch_pr_details, hrs]
              | resp st2 body2 t2 =>
                  simp only [reqFailsEarly, Bool.or_eq_true, Option.isNone_iff_eq_none] at h
                  rcases h with h | h
                  · simp [fetch_pr_details, hrs, h]
                  · subst h
                    by_cases hrs2 : raiseForStatusFails st2 = true <;>
                      simp [fetch_pr_details, hrs, hrs2]

/-- Witness for C3 at a concrete connection failure. -/
theorem fetch_failure_returns_none_witness :
    (fetch_pr_details "o" "r" 1 ⟨.netErr, .netErr, .netErr⟩).2 = .ok none :=
  fetch_failure_returns_none "o" "r" 1 ⟨.netErr, .netErr, .netErr⟩ (Or.inl rfl)

/-- C3 (counterexample): a 200-status metadata response whose body is valid
JSON of the wrong shape (a list) makes `pr_data.get` raise an uncaught
`AttributeError` instead of failing with the `FetchError` value, and a
status outside the 4xx/5xx ranges (999) is not a failure at all: the fetch
succeeds, contradicting "any non-2xx status fails with FetchError". -/
theorem fetch_wrong_shape_crashes :
    (fetch_pr_details "o" "r" 1
      ⟨.resp 200 (some (.list [])) "", .resp 200 (some (.list [])) "", .netErr⟩).2 =
      .error (.attrErr "\x27list\x27 object has no attribute \x27get\x27") ∧
    (fetch_pr_details "o" "r" 1
      ⟨.resp 999 (some (.obj [])) "", .resp 999 (some (.list [])) "", .netErr⟩).2 =
      .ok (some ⟨.null, .null, .null, []⟩) :=
  ⟨rfl, rfl⟩

/-- One entry of a provider-A files-changed payload: a file path plus an
optional diff text (absent for binary files or renames without content). -/
structure FileEntry where
  filename : String
  patch : Option String
deriving DecidableEq

/-- JSON encoding of one files-changed entry: always a `filename` field, and
a `patch` field exactly when a diff text is present. -/
def encodeEntry (e : FileEntry) : Json :=
  .obj (("filename", .str e.filename) ::
    (match e.patch with
     | some p => [("patch", Json.str p)]
     | none => []))

/-- The diff map the extraction rule is specified to produce: the
patch-carrying entries, in payload order, keyed by file path. -/
def entryChanges : List FileEntry → List (String × String)
  | [] => []
  | e :: rest =>
      match e.patch with
      | some p => (e.filename, p) :: entryChanges rest
      | none => entryChanges rest

theorem dictInsert_lift_append (l : List (String × String)) (a : String) (v : Json)
    (h : a ∉ l.map Prod.fst) :
    dictInsert (liftChanges l) (.str a) v = liftChanges l ++ [(Json.str a, v)] := by
  induction l with
  | nil => rfl
  | cons p rest ih =>
      simp only [List.map_cons, List.mem_cons, not_or] at h
      simp only [liftChanges, List.map_cons, dictInsert]
      rw [show jsonEq (Json.str p.1) (Json.str a) = (p.1 == a) from rfl]
      rw [beq_eq_false_iff_ne.mpr (fun hq => h.1 hq.symm)]
      simp only [Bool.false_eq_true, if_false, List.cons_append, List.cons.injEq, true_and]
      exact ih h.2

theorem extractLoop_encode (entries : List FileEntry) (acc : List (String × String))
    (hdisj : ∀ e ∈ entries, e.patch.isSome = true → e.filename ∉ acc.map Prod.fst)
    (hnd : (entries.map FileEntry.filename).Nodup) :
    extractLoop (liftChanges acc) (entries.map encodeEntry) =
      .ok (liftChanges (acc ++ entryChanges entries)) := by
  induction entries generalizing acc with
  | nil => simp [extractLoop, entryChanges]
  | cons e rest ih =>
      simp only [List.map_cons, List.nodup_cons] at hnd
      cases hp : e.patch with
      | none =>
          have hin : pyIn "patch" (encodeEntry e) = .ok false := by
            simp only [encodeEntry, hp]; rfl
          simp only [List.map_cons, extractLoop, hin]
          have hch : entryChanges (e :: rest) = entryChanges rest := by
            simp [entryChanges, hp]
          rw [hch]
          exact ih acc (fun e2 hm hs => hdisj e2 (List.mem_cons_of_mem _ hm) hs) hnd.2
      | some p =>
          have hin : pyIn "patch" (encodeEntry e) = .ok true := by
            simp only [encodeEntry, hp]; rfl
          have hfn : pyGetItem (encodeEntry e) "filename" = .ok (.str e.filename) := by
            simp only [encodeEntry, hp]; rfl
          have hpt : pyGetItem (encodeEntry e) "patch" = .ok (.str p) := by
            simp only [encodeEntry, hp]; rfl
          simp only [List.map_cons, extractLoop, hin, hfn, hpt]
          rw [dictInsert_lift_append acc e.filename (.str p)
            (hdisj e (List.mem_cons_self _ _) (by simp [hp]))]
          rw [show liftChanges acc ++ [(Json.str e.filename, Json.str p)] =
            liftChanges (acc ++ [(e.filename, p)]) by simp [liftChanges]]
          rw [ih (acc ++ [(e.filename, p)]) ?_ hnd.2]
          · have hch : entryChanges (e :: rest) = (e.filename, p) :: entryChanges rest := by
              simp [entryChanges, hp]
            rw [hch]
            simp [List.append_assoc]
          · intro e2 hm hs
            have h1 := hdisj e2 (List.mem_cons_of_mem _ hm) hs
            have h2 : e2.filename ≠ e.filename := by
              intro hq
              exact hnd.1 (hq ▸ List.mem_map_of_mem FileEntry.filename hm)
            simp [List.map_append, h1, h2]

theorem entryChanges_length (entries : List FileEntry) :
    (entryChanges entries).length = entries.countP (fun e => e.patch.isSome) := by
  induction entries with
  | nil => rfl
  | cons e rest ih =>
      cases hp : e.patch <;> simp [entryChanges, List.countP_cons, hp, ih]

/-- C4 (amended): for a files-changed payload whose entries have pairwise
distinct file paths and of which k carry a patch field, the resulting
`file_changes` is exactly the k patch-carrying entries in payload order,
keyed by their file paths and mapped to their diff texts; entries without a
patch field are omitted. -/
theorem fetch_file_changes_exact (owner repo : String) (n : Int) (w : FetchWorld)
    (kvs : List (String × Json)) (entries : List FileEntry) (t1 t2 : String)
    (hpr : w.prResp = .resp 200 (some (.obj kvs)) t1)
    (hfiles : w.filesResp = .resp 200 (some (.list (entries.map encodeEntry))) t2)
    (hnd : (entries.map FileEntry.filename).Nodup) :
    (fetch_pr_details owner repo n w).2 =
      .ok (some ⟨(lookupJ kvs "title").getD .null, (lookupJ kvs "body").getD .null,
        (lookupJ kvs "html_url").getD .null, liftChanges (entryChanges entries)⟩) ∧
    (liftChanges (entryChanges entries)).length =
      entries.countP (fun e => e.patch.isSome) := by
  constructor
  · have hex : extract_file_changes (.list (entries.map encodeEntry)) =
        .ok (liftChanges (entryChanges entries)) := by
      have h := extractLoop_encode entries [] (by simp) hnd
      simpa [extract_file_changes, pyIter, liftChanges] using h
    simp [fetch_pr_details, hpr, hfiles, raiseForStatusFails, hex, pyGet]
  · rw [show liftChanges (entryChanges entries) =
      (entryChanges entries).map (fun p => (Json.str p.1, Json.str p.2)) from rfl]
    rw [List.length_map, entryChanges_length]

/-- Witness for C4 at the concrete scenario of the spec: one entry with a
patch, one binary entry without; the result keeps exactly the first. -/
theorem fetch_file_changes_exact_witness :
    (fetch_pr_details "octocat" "Spoon-Knife" 1
      ⟨.resp 200 (some (.obj [("title", .str "T")])) "",
       .resp 200 (some (.list [encodeEntry ⟨"a.py", some "@@ ... @@"⟩,
         encodeEntry ⟨"b.bin", none⟩])) "",
       .netErr⟩).2 =
      .ok (some ⟨.str "T", .null, .null, [(Json.str "a.py", Json.str "@@ ... @@")]⟩) ∧
    ([(Json.str "a.py", Json.str "@@ ... @@")] : List (Json × Json)).length = 1 :=
  fetch_file_changes_exact "octocat" "Spoon-Knife" 1
    ⟨.resp 200 (some (.obj [("title", .str "T")])) "",
     .resp 200 (some (.list [encodeEntry ⟨"a.py", some "@@ ... @@"⟩,
       encodeEntry ⟨"b.bin", none⟩])) "",
     .netErr⟩
    [("title", .str "T")] [⟨"a.py", some "@@ ... @@"⟩, ⟨"b.bin", none⟩] "" ""
    rfl rfl (by decide)

/-- C4 (counterexample): a payload with two patch-carrying entries that
share the file path `a.py` (so k = 2) yields a `file_changes` with a single
entry — the second patch overwrites the first under the same key — so the
result does not contain exactly k entries. -/
theorem fetch_duplicate_filenames_collapse :
    (fetch_pr_details "o" "r" 1
      ⟨.resp 200 (some (.obj [])) "",
       .resp 200 (some (.list [.obj [("filename", .str "a.py"), ("patch", .str "p1")],
         .obj [("filename", .str "a.py"), ("patch", .str "p2")]])) "",
       .netErr⟩).2 =
      .ok (some ⟨.null, .null, .null, [(Json.str "a.py", Json.str "p2")]⟩) ∧
    ([.obj [("filename", Json.str "a.py"), ("patch", Json.str "p1")],
      .obj [("filename", Json.str "a.py"), ("patch", Json.str "p2")]] : List Json).countP
        (fun f => ((pyIn "patch" f).toOption.getD false)) = 2 ∧
    ([(Json.str "a.py", Json.str "p2")] : List (Json × Json)).length = 1 :=
  ⟨rfl, rfl, rfl⟩

/-- The eight case variants of the affirmative token. -/
def yesVariants : List String := ["yes", "yeS", "yEs", "yES", "Yes", "YeS", "YEs", "YES"]

/-- Case-insensitive equality with the token `yes`, stated independently of
the lowercasing the code performs: membership in the explicit list of case
variants. -/
def ciEqYes (s : String) : Bool := decide (s ∈ yesVariants)

theorem pyCharLower_ascii {c d : Char} (hd1 : 97 ≤ d.toNat) (hd2 : d.toNat ≤ 122)
    (h : pyCharLower c = d) : c = d ∨ c.toNat = d.toNat - 32 := by
  rcases pyCharLower_inv h with h1 | ⟨h1, h2, h3⟩
  · left; exact h1
  · right; omega

theorem pyLower_eq_yes_iff (s : String) : pyLower s = "yes" ↔ s ∈ yesVariants := by
  constructor
  · intro h
    have hdata : s.data.map pyCharLower = ['y', 'e', 's'] := congrArg String.data h
    have hlen : s.data.length = 3 := by
      rw [← List.length_map s.data pyCharLower, hdata]
      rfl
    obtain ⟨a, b, c, habc⟩ := List.length_eq_three.mp hlen
    rw [habc] at hdata
    simp only [List.map_cons, List.map_nil, List.cons.injEq, and_true] at hdata
    have hs : s = ⟨[a, b, c]⟩ := by
      cases s
      exact congrArg String.mk habc
    have hA : a = 'y' ∨ a = 'Y' := by
      rcases pyCharLower_ascii (by decide) (by decide) hdata.1 with h1 | h1
      · left; exact h1
      · right; exact charEq_of_toNat _ _ (by rw [h1]; rfl)
    have hB : b = 'e' ∨ b = 'E' := by
      rcases pyCharLower_ascii (by decide) (by decide) hdata.2.1 with h1 | h1
      · left; exact h1
      · right; exact charEq_of_toNat _ _ (by rw [h1]; rfl)
    have hC : c = 's' ∨ c = 'S' := by
      rcases pyCharLower_ascii (by decide) (by decide) hdata.2.2 with h1 | h1
      · left; exact h1
      · right; exact charEq_of_toNat _ _ (by rw [h1]; rfl)
    rw [hs]
    rcases hA with rfl | rfl <;> rcases hB with rfl | rfl <;> rcases hC with rfl | rfl <;> decide
  · intro h
    fin_cases h <;> rfl

/-- The comparison the code performs at the confirmation prompt coincides
with case-insensitive equality with `yes`. -/
theorem confirm_beq_eq_ciEqYes (s : String) : (pyLower s == "yes") = ciEqYes s := by
  unfold ciEqYes
  by_cases h : pyLower s = "yes"
  · have hm : s ∈ yesVariants := (pyLower_eq_yes_iff s).mp h
    rw [h]
    simp [hm]
  · have hm : s ∉ yesVariants := fun hq => h ((pyLower_eq_yes_iff s).mpr hq)
    rw [beq_eq_false_iff_ne.mpr h, decide_eq_false hm]

theorem runWithToken_no_post (server owner repo : String) (n : Int) (token : String)
    (w : FetchWorld) (confirm : String) (h : ciEqYes confirm = false) :
    (runWithToken server owner repo n token w confirm).summaryCalls = [] := by
  unfold runWithToken
  split
  · rfl
  · split
    · rfl
    · rfl
    · split
      · rfl
      · unfold confirmAndPost
        rw [confirm_beq_eq_ciEqYes, h]
        simp

theorem runMain_no_post (inp : RunInput) (h : ciEqYes inp.confirm = false) :
    (runMain inp).summaryCalls = [] := by
  unfold runMain
  split
  · rfl
  · rfl
  · split
    · rfl
    · split
      · rfl
      · exact runWithToken_no_post _ _ _ _ _ _ _ h

/-- C2: at the confirmation step, an input that equals `yes` up to case
leads to exactly one `post_review_comment` call (carrying the feedback
text), and any other input leads to the declined status with no such call;
moreover a whole run with a non-affirmative reply never calls
`post_review_comment` at all. -/
theorem confirmation_yes_case_insensitive (c : Client) (owner repo : String) (n : Int)
    (fc : List NetCall) (fb confirm : String) (resp : ReqResult) (inp : RunInput) :
    (ciEqYes confirm = true →
      (confirmAndPost c owner repo n fc fb confirm resp).summaryCalls = [fb]) ∧
    (ciEqYes confirm = false →
      (confirmAndPost c owner repo n fc fb confirm resp).summaryCalls = [] ∧
      (confirmAndPost c owner repo n fc fb confirm resp).status = .declined) ∧
    (ciEqYes inp.confirm = false → (runMain inp).summaryCalls = []) := by
  refine ⟨?_, ?_, ?_⟩
  · intro h
    unfold confirmAndPost
    rw [confirm_beq_eq_ciEqYes, h]
    simp only [if_true]
    rcases clientPost c owner repo n fb resp with ⟨p, calls, res⟩
    cases res <;> rfl
  · intro h
    unfold confirmAndPost
    rw [confirm_beq_eq_ciEqYes, h]
    simp
  · exact runMain_no_post inp

/-- Witness for C2: an uppercase reply posts once, a negative reply posts
nothing, both at the step level and for a whole concrete run. -/
theorem confirmation_yes_case_insensitive_witness :
    ciEqYes "YES" = true ∧
    (confirmAndPost (.githubClient "t") "o" "r" 1 [] "fb" "YES" (.resp 201 none "")).summaryCalls
      = ["fb"] ∧
    (confirmAndPost (.githubClient "t") "o" "r" 1 [] "fb" "No" (.resp 201 none "")).summaryCalls
      = [] ∧
    (runMain ⟨⟨"github.com", "/o/r/pull/1"⟩, [("github", "tok")],
      ⟨.resp 200 (some (.obj [])) "", .resp 200 (some (.list [])) "", .resp 201 none ""⟩,
      "No"⟩).summaryCalls = [] := by
  refine ⟨by decide, ?_, ?_, ?_⟩
  · exact (confirmation_yes_case_insensitive (.githubClient "t") "o" "r" 1 [] "fb" "YES"
      (.resp 201 none "") ⟨⟨"", ""⟩, [], ⟨.netErr, .netErr, .netErr⟩, ""⟩).1 (by decide)
  · exact ((confirmation_yes_case_insensitive (.githubClient "t") "o" "r" 1 [] "fb" "No"
      (.resp 201 none "") ⟨⟨"", ""⟩, [], ⟨.netErr, .netErr, .netErr⟩, ""⟩).2.1 (by decide)).1
  · exact (confirmation_yes_case_insensitive (.githubClient "t") "o" "r" 1 [] "fb" "No"
      (.resp 201 none "")
      ⟨⟨"github.com", "/o/r/pull/1"⟩, [("github", "tok")],
        ⟨.resp 200 (some (.obj [])) "", .resp 200 (some (.list [])) "", .resp 201 none ""⟩,
        "No"⟩).2.2 (by decide)

/-- C5: when the credential for the resolved provider is absent from the
configuration, or equals the placeholder sentinel, the run terminates on
the missing-credential path with an empty outbound-request trace and no
posting. -/
theorem missing_credential_no_network (inp : RunInput) (pd : ParsedInfo)
    (hparse : parse_pr_url inp.url = .ok (some pd))
    (htok : lookupToken inp.tokens (pyLower pd.server) = none ∨
            lookupToken inp.tokens (pyLower pd.server) = some "YOUR_GITHUB_TOKEN_HERE") :
    (runMain inp).status = .missingCredential ∧ (runMain inp).netCalls = [] ∧
    (runMain inp).summaryCalls = [] := by
  rcases htok with h | h <;> simp [runMain, hparse, h]

/-- Witness for C5 at a run configured with the placeholder token. -/
theorem missing_credential_no_network_witness :
    (runMain ⟨⟨"github.com", "/o/r/pull/1"⟩, [("github", "YOUR_GITHUB_TOKEN_HERE")],
      ⟨.netErr, .netErr, .netErr⟩, "yes"⟩).status = .missingCredential ∧
    (runMain ⟨⟨"github.com", "/o/r/pull/1"⟩, [("github", "YOUR_GITHUB_TOKEN_HERE")],
      ⟨.netErr, .netErr, .netErr⟩, "yes"⟩).netCalls = [] ∧
    (runMain ⟨⟨"github.com", "/o/r/pull/1"⟩, [("github", "YOUR_GITHUB_TOKEN_HERE")],
      ⟨.netErr, .netErr, .netErr⟩, "yes"⟩).summaryCalls = [] :=
  missing_credential_no_network
    ⟨⟨"github.com", "/o/r/pull/1"⟩, [("github", "YOUR_GITHUB_TOKEN_HERE")],
      ⟨.netErr, .netErr, .netErr⟩, "yes"⟩
    ⟨"github", "o", "r", 1⟩ rfl (Or.inr rfl)

theorem post_review_comment_calls (o r : String) (n : Int) (cm : String) (resp : ReqResult) :
    (post_review_comment o r n cm resp).2.1 =
      [.post (GITHUB_BASE_URL ++ "/repos/" ++ o ++ "/" ++ r ++ "/issues/" ++
        toString n ++ "/comments") cm] := by
  unfold post_review_comment
  cases resp with
  | netErr => rfl
  | resp st b t => by_cases h : (st == 201) = true <;> simp [h]

theorem post_review_comment_no_raise (o r : String) (n : Int) (cm : String)
    (st : Nat) (b : Option Json) (t : String) :
    (post_review_comment o r n cm (.resp st b t)).2.2 = .ok () := by
  unfold post_review_comment
  by_cases h : (st == 201) = true <;> simp [h]

/-- C6: `post_inline_comment` on the GitHub client always degrades: it makes
exactly one `post_review_comment` call whose text contains the file path and
the line number, prints the degradation notice first (a side-channel signal,
not a silent success), performs exactly one POST, and completes without an
exception whenever the network delivers any HTTP response. -/
theorem post_inline_degrades_to_summary (owner repo : String) (n : Int)
    (fp : String) (ln : Int) (comment : String) (resp : ReqResult)
    (hresp : resp.isNetErr = false) :
    (post_inline_comment owner repo n fp ln comment resp).summaryCalls =
      ["Review comment on file " ++ fp ++ ", line " ++ toString ln ++ ": " ++ comment] ∧
    containsSubstr
      ("Review comment on file " ++ fp ++ ", line " ++ toString ln ++ ": " ++ comment)
      fp = true ∧
    containsSubstr
      ("Review comment on file " ++ fp ++ ", line " ++ toString ln ++ ": " ++ comment)
      (toString ln) = true ∧
    (post_inline_comment owner repo n fp ln comment resp).prints.head? =
      some "Note: Inline commenting is not fully implemented. Posting as a general comment instead." ∧
    (post_inline_comment owner repo n fp ln comment resp).netCalls.length = 1 ∧
    (post_inline_comment owner repo n fp ln comment resp).result = .ok () := by
  cases resp with
  | netErr => simp [ReqResult.isNetErr] at hresp
  | resp st b t =>
      refine ⟨rfl, ?_, ?_, rfl, ?_, ?_⟩
      · simpa [String.append_assoc] using
          containsSubstr_mid "Review comment on file " fp
            (", line " ++ toString ln ++ ": " ++ comment)
      · simpa [String.append_assoc] using
          containsSubstr_mid ("Review comment on file " ++ fp ++ ", line ") (toString ln)
            (": " ++ comment)
      · show (post_review_comment owner repo n
          ("Review comment on file " ++ fp ++ ", line " ++ toString ln ++ ": " ++ comment)
          (.resp st b t)).2.1.length = 1
        rw [post_review_comment_calls]
        rfl
      · show (post_review_comment owner repo n
          ("Review comment on file " ++ fp ++ ", line " ++ toString ln ++ ": " ++ comment)
          (.resp st b t)).2.2 = .ok ()
        exact post_review_comment_no_raise owner repo n _ st b t

/-- Witness for C6 at a concrete successful POST. -/
theorem post_inline_degrades_to_summary_witness :
    (post_inline_comment "o" "r" 1 "f.py" 12 "c" (.resp 201 none "")).summaryCalls =
      ["Review comment on file f.py, line 12: c"] ∧
    containsSubstr "Review comment on file f.py, line 12: c" "f.py" = true ∧
    containsSubstr "Review comment on file f.py, line 12: c" "12" = true ∧
    (post_inline_comment "o" "r" 1 "f.py" 12 "c" (.resp 201 none "")).prints.head? =
      some "Note: Inline commenting is not fully implemented. Posting as a general comment instead." ∧
    (post_inline_comment "o" "r" 1 "f.py" 12 "c" (.resp 201 none "")).netCalls.length = 1 ∧
    (post_inline_comment "o" "r" 1 "f.py" 12 "c" (.resp 201 none "")).result = .ok () :=
  post_inline_degrades_to_summary "o" "r" 1 "f.py" 12 "c" (.resp 201 none "") rfl

/-- C8: the factory is a pure dispatch on the lowercased provider
identifier — each of the three recognized identifiers yields the matching
concrete client, any other identifier fails with `ValueError` rather than a
default client — and on a factory error the orchestrator stops on the
unsupported-provider path with no network traffic and no posting. -/
theorem get_client_dispatch (s t owner repo : String) (n : Int) (w : FetchWorld)
    (confirm : String) :
    (pyLower s = "github" → get_client s t = .ok (.githubClient t)) ∧
    (pyLower s = "gitlab" → get_client s t = .ok (.gitlabClient t)) ∧
    (pyLower s = "bitbucket" → get_client s t = .ok (.bitbucketClient t)) ∧
    (pyLower s ≠ "github" → pyLower s ≠ "gitlab" → pyLower s ≠ "bitbucket" →
      get_client s t = .error (.valueErr ("Unsupported Git server: " ++ s))) ∧
    (∀ e, get_client s t = .error e →
      runWithToken s owner repo n t w confirm = ⟨.unsupportedProvider, [], [], false⟩) := by
  refine ⟨?_, ?_, ?_, ?_, ?_⟩
  · intro h
    simp [get_client, h]
  · intro h
    simp [get_client, h]
  · intro h
    simp [get_client, h]
  · intro h1 h2 h3
    simp [get_client, beq_iff_eq, h1, h2, h3]
  · intro e h
    simp [runWithToken, h]

/-- Witness for C8: a recognized identifier in mixed case dispatches, an
unrecognized one fails closed and stops the orchestrator. -/
theorem get_client_dispatch_witness :
    get_client "GitHub" "t" = .ok (.githubClient "t") ∧
    get_client "sourceforge" "t" = .error (.valueErr "Unsupported Git server: sourceforge") ∧
    runWithToken "sourceforge" "o" "r" 1 "t" ⟨.netErr, .netErr, .netErr⟩ "yes" =
      ⟨.unsupportedProvider, [], [], false⟩ := by
  have h1 := get_client_dispatch "GitHub" "t" "o" "r" 1 ⟨.netErr, .netErr, .netErr⟩ "yes"
  have h2 := get_client_dispatch "sourceforge" "t" "o" "r" 1 ⟨.netErr, .netErr, .netErr⟩ "yes"
  have he := h2.2.2.2.1 (by decide) (by decide) (by decide)
  exact ⟨h1.1 rfl, he, h2.2.2.2.2 _ he⟩

end Codemate
